import Mathlib

/-!
Shallow embedding of the cligo CLI engine (src/cligo.go, src/api.go).

The embedding follows the second (authoritative) implementation in
src/cligo.go: `App`, `RegisterGroup`, `RegisterCommand`, `RunCLI`,
`parseAndExecute`, `executeCommand`, `printHelp`, `printCommandHelp`,
`getCommandUsage`, `getCommandTryUsage`, `parseCliTag`,
`extractParentGroup`, plus a model of the spf13/pflag flag parser that
`executeCommand` delegates to (`FlagSet`, `parseTokens`).

Modelling conventions:
- Output (`fmt.Printf`, `Echo`, builtin `print`) is collected as a trace:
  a `List String`, one element per emission call, with the uniform
  trailing newline of `Echo` dropped.
- Go struct fields that carry cli bindings become a `List Field`; a
  field stores its `cli` tag and its current value.  Reflective kinds
  (`reflect.String`, `reflect.Int*`, `reflect.Float*`, `reflect.Bool`,
  and the `CliGroup` interface field) become the `FieldVal` constructors.
- Go `int64` values are `Int` with explicit int64 range checks in the
  string-to-int parsers.
- Float fields store the accepted literal verbatim (`FieldVal.vfloat`):
  no verified property depends on floating-point arithmetic, only on
  whether a literal is accepted, so float formatting is not modelled.
- Go maps are association lists with overwrite-on-insert (`ainsert`)
  and first-match lookup (`alookup`); `map[string][]T` with `append`
  becomes a flat registration list filtered by parent, which preserves
  the registration order exposed by the Go code.
- Pointer aliasing: `executeCommand` writes parsed values through
  reflection into the registered command instance itself.  The model
  makes this explicit: the dispatch result carries the mutated command,
  and `parseAndExecute` installs it back into the `App`, so the `App`
  returned by a run shows the post-dispatch state of the shared
  descriptors.
-/

namespace Cligo

/-! ## Go strconv models -/

/-- Digit value of a character in the given base (strconv semantics). -/
def charDigit (base : Nat) (c : Char) : Option Nat :=
  let d : Option Nat :=
    if c.isDigit then some (c.toNat - 48)
    else if 'a' ≤ c ∧ c ≤ 'z' then some (c.toNat - 87)
    else if 'A' ≤ c ∧ c ≤ 'Z' then some (c.toNat - 55)
    else none
  d.bind (fun v => if v < base then some v else none)

/-- Accumulate digits of the given base; `none` on empty or invalid input. -/
def digitsVal (base : Nat) (cs : List Char) : Option Nat :=
  if cs.isEmpty then none
  else cs.foldl (fun acc c => acc.bind (fun a => (charDigit base c).map (fun d => a * base + d))) (some 0)

/-- Largest int64, as used by strconv.ParseInt range checks. -/
def int64Max : Nat := 9223372036854775807

/-- Apply an optional leading sign, with int64 range check. -/
def signedOfNat (neg : Bool) (n : Nat) : Option Int :=
  if neg then (if n ≤ int64Max + 1 then some (-(n : Int)) else none)
  else (if n ≤ int64Max then some ((n : Int)) else none)

/-- strconv.ParseInt(s, 10, 64): optional sign, base-10 digits, int64 range. -/
def goParseInt10 (s : String) : Option Int :=
  let (neg, ds) : Bool × List Char :=
    match s.data with
    | '+' :: rest => (false, rest)
    | '-' :: rest => (true, rest)
    | cs => (false, cs)
  (digitsVal 10 ds).bind (signedOfNat neg)

/-- strconv.ParseInt(s, 0, 64): base chosen by prefix (0x/0X hex, 0b/0B
binary, 0o/0O or leading 0 octal, else decimal), int64 range.  Go's
digit-separator underscores are not modelled (rejected); no verified
property involves such literals. -/
def goParseIntB0 (s : String) : Option Int :=
  let (neg, cs1) : Bool × List Char :=
    match s.data with
    | '+' :: rest => (false, rest)
    | '-' :: rest => (true, rest)
    | cs => (false, cs)
  let (base, cs2) : Nat × List Char :=
    match cs1 with
    | '0' :: 'x' :: rest => (16, rest)
    | '0' :: 'X' :: rest => (16, rest)
    | '0' :: 'b' :: rest => (2, rest)
    | '0' :: 'B' :: rest => (2, rest)
    | '0' :: 'o' :: rest => (8, rest)
    | '0' :: 'O' :: rest => (8, rest)
    | '0' :: rest => if rest.isEmpty then (10, ['0']) else (8, rest)
    | cs => (10, cs)
  (digitsVal base cs2).bind (signedOfNat neg)

/-- strconv.Atoi with Go's error-ignoring call pattern `v, _ := strconv.Atoi(s)`:
result is 0 on a syntax error.  (Go clamps on range overflow; out-of-range
literals are mapped to 0 here, a difference no verified property touches.) -/
def goAtoi (s : String) : Int := (goParseInt10 s).getD 0

/-- strconv.ParseBool: the exact literal set Go accepts. -/
def goParseBool (s : String) : Option Bool :=
  if s = "1" ∨ s = "t" ∨ s = "T" ∨ s = "true" ∨ s = "TRUE" ∨ s = "True" then some true
  else if s = "0" ∨ s = "f" ∨ s = "F" ∨ s = "false" ∨ s = "FALSE" ∨ s = "False" then some false
  else none

/-- strconv.ParseFloat acceptance check, restricted to plain decimal
forms with an optional exponent.  (Go additionally accepts hex floats,
inf/nan spellings and digit separators; no verified property involves
such literals.) -/
def goParseFloatOk (s : String) : Bool :=
  let cs : List Char :=
    match s.data with
    | '+' :: rest => rest
    | '-' :: rest => rest
    | cs => cs
  let ip := cs.takeWhile Char.isDigit
  let r1 := cs.dropWhile Char.isDigit
  let (hasDot, fp, r2) : Bool × List Char × List Char :=
    match r1 with
    | '.' :: t => (true, t.takeWhile Char.isDigit, t.dropWhile Char.isDigit)
    | _ => (false, [], r1)
  let mantOk := (!ip.isEmpty) || (hasDot && !fp.isEmpty)
  match r2 with
  | [] => mantOk
  | e :: t =>
    if e = 'e' ∨ e = 'E' then
      let t2 : List Char :=
        match t with
        | '+' :: u => u
        | '-' :: u => u
        | u => u
      mantOk && (!t2.isEmpty) && t2.all Char.isDigit
    else false

/-! ## Go strings helpers

Structural (kernel-reducible) models of the Go string operations the
engine uses: strings.Split with a one-character separator,
strings.SplitN(s, sep, 2), strings.ToUpper, and Go's byte-wise string
ordering (used for pflag's by-name flag sort). -/

/-- strings.Split with a single-character separator. -/
def splitOnChar (c : Char) : List Char → List (List Char)
  | [] => [[]]
  | x :: xs =>
    match splitOnChar c xs with
    | [] => [[]]
    | h :: t => if x = c then [] :: h :: t else (x :: h) :: t

/-- strings.SplitN(s, sep, 2) with a one-character separator: the part
before the first occurrence, and the rest when the separator occurs. -/
def breakAtChar (c : Char) : List Char → List Char × Option (List Char)
  | [] => ([], none)
  | x :: xs =>
    if x = c then ([], some xs)
    else
      let r := breakAtChar c xs
      (x :: r.1, r.2)

/-- strings.ToUpper (ASCII behaviour, which covers all binding names). -/
def goToUpper (s : String) : String := ⟨s.data.map Char.toUpper⟩

/-- Code-point-wise list ordering. -/
def charListLt : List Char → List Char → Bool
  | [], [] => false
  | [], _ :: _ => true
  | _ :: _, [] => false
  | a :: as, b :: bs =>
    if a.toNat < b.toNat then true
    else if a.toNat = b.toNat then charListLt as bs
    else false

/-- Go's `<` on strings (byte-wise; coincides with code-point order on
the ASCII names involved). -/
def strLtB (a b : String) : Bool := charListLt a.data b.data

/-! ## Go maps as association lists -/

/-- Go map assignment `m[k] = v`: overwrite the existing entry or append. -/
def ainsert {α : Type} (m : List (String × α)) (k : String) (v : α) : List (String × α) :=
  if m.any (fun p => p.1 == k) then m.map (fun p => if p.1 == k then (k, v) else p)
  else m ++ [(k, v)]

/-- Go map lookup `m[k]` (with presence bit). -/
def alookup {α : Type} (m : List (String × α)) (k : String) : Option α :=
  (m.find? (fun p => p.1 == k)).map (·.2)

/-! ## cli tag parsing (parseCliTag, src/cligo.go lines 750-766) -/

/-- parseCliTag: split on commas; each part splits at the first `=` into a
key/value pair; a bare key maps to "true". -/
def parseCliTag (tag : String) : List (String × String) :=
  (splitOnChar ',' tag.data).foldl
    (fun m part =>
      match breakAtChar '=' part with
      | (k, none) => ainsert m ⟨k⟩ "true"
      | (k, some v) => ainsert m ⟨k⟩ ⟨v⟩)
    []

/-! ## Descriptors -/

/-- Value stored in one struct field of a command/group descriptor,
tagged by its reflect kind. -/
inductive FieldVal where
  | vstr (s : String)
  | vint (n : Int)
  | vfloat (raw : String)
  | vbool (b : Bool)
  | vgroup
deriving DecidableEq, Repr

/-- One struct field: its `cli` tag ("" when absent) and current value. -/
structure Field where
  tag : String
  val : FieldVal
deriving DecidableEq, Repr

/-- A CliGroup descriptor: Group(), the two Help() strings, and the
struct fields (carrying the parent-group tag). -/
structure GroupD where
  name : String
  shortHelp : String
  longHelp : String
  fields : List Field
deriving DecidableEq, Repr

/-- A CliCommand descriptor: Command(), the two Help() strings, the
struct fields, and the result its Run handler reports when invoked. -/
structure Cmd where
  name : String
  shortHelp : String
  longHelp : String
  fields : List Field
  runRes : Except String Unit
deriving Repr

/-- extractParentGroup (src/cligo.go lines 769-789): the `group` tag value
on the first CliGroup-typed field that declares one, else "". -/
def extractParentGroup : List Field → String
  | [] => ""
  | f :: rest =>
    match f.val with
    | .vgroup =>
      if f.tag ≠ "" then
        match alookup (parseCliTag f.tag) "group" with
        | some g => g
        | none => extractParentGroup rest
      else extractParentGroup rest
    | _ => extractParentGroup rest

/-! ## App and registration (src/cligo.go lines 320-389) -/

/-- The distinguished root group name (var RootGroup = "cli"). -/
def RootGroup : String := "cli"

/-- The App: identity metadata plus the registry.  `groups`/`commands`
are flat registration lists (parent, descriptor); filtering by parent
reproduces Go's `map[string][]T` with append. -/
structure App where
  name : String
  help : String
  version : String
  build : String
  groups : List (String × GroupD)
  commands : List (String × Cmd)
  helps : List (String × String)
deriving Repr

/-- App construction (New): helps[RootGroup] is seeded from the
configured help text when non-empty. -/
def mkApp (name help version build : String) : App :=
  { name := name, help := help, version := version, build := build,
    groups := [], commands := [],
    helps := if help ≠ "" then [(RootGroup, help)] else [] }

/-- Child groups registered under a parent, in registration order. -/
def groupsOf (app : App) (parent : String) : List GroupD :=
  (app.groups.filter (fun pg => pg.1 == parent)).map (·.2)

/-- Child commands registered under a parent, in registration order. -/
def commandsOf (app : App) (parent : String) : List Cmd :=
  (app.commands.filter (fun pc => pc.1 == parent)).map (·.2)

/-- helps[g] with Go's zero value "" for a missing key. -/
def helpsOf (app : App) (g : String) : String :=
  (alookup app.helps g).getD ""

/-- RegisterGroup (src/cligo.go lines 367-379): append under the declared
parent; record the group's long help (falling back to short). -/
def RegisterGroup (app : App) (g : GroupD) : Except String App :=
  let parentGroup := extractParentGroup g.fields
  if parentGroup = "" then .error ("parent group not found in cli group: " ++ g.name)
  else
    let longDesc := if g.longHelp.length = 0 then g.shortHelp else g.longHelp
    .ok { app with groups := app.groups ++ [(parentGroup, g)],
                   helps := ainsert app.helps g.name longDesc }

/-- RegisterCommand (src/cligo.go lines 382-389): append under the
declared parent. -/
def RegisterCommand (app : App) (c : Cmd) : Except String App :=
  let parentGroup := extractParentGroup c.fields
  if parentGroup = "" then .error ("parent group not found in cli command: " ++ c.name)
  else .ok { app with commands := app.commands ++ [(parentGroup, c)] }

/-- Register a list of groups in order, aborting on the first error. -/
def registerGroups (app : App) : List GroupD → Except String App
  | [] => .ok app
  | g :: gs => (RegisterGroup app g).bind (fun a => registerGroups a gs)

/-- Register a list of commands in order, aborting on the first error. -/
def registerCommands (app : App) : List Cmd → Except String App
  | [] => .ok app
  | c :: cs => (RegisterCommand app c).bind (fun a => registerCommands a cs)

/-- The registration loop of Run (src/cligo.go lines 819-833): all groups,
then all commands, aborting on the first error. -/
def registerAll (app : App) (gs : List GroupD) (cs : List Cmd) : Except String App :=
  (registerGroups app gs).bind (fun a => registerCommands a cs)

/-! ## pflag model

`executeCommand` builds a `pflag.FlagSet` with `ContinueOnError`,
registers one flag per option binding plus `help`, and parses.  The
model below follows pflag's parsing loop: interspersed positionals,
`--` terminator, `--name=value`, `--name value`, bare `--name` for a
flag with a non-empty NoOptDefVal (every bool flag has NoOptDefVal
"true"), unknown long flags and unknown shorthands are errors, and the
shorthand `-h` triggers the usage hook and returns ErrHelp.  Flag
values are stored in normalized string form, as pflag's typed Values
render them. -/

/-- The reflect kind a registered flag parses as. -/
inductive VKind where
  | str | int | float | bool
deriving DecidableEq, Repr

/-- One registered flag: name, kind, current (string-rendered) value,
and whether it was set on the command line. -/
structure PFlag where
  name : String
  kind : VKind
  value : String
  changed : Bool
deriving DecidableEq, Repr

/-- A pflag.FlagSet. -/
structure FlagSet where
  flags : List PFlag
deriving DecidableEq, Repr

/-- Register a flag with its default (string-rendered) value.  pflag
panics on a duplicate name; duplicate option names are not modelled. -/
def addFlag (fs : FlagSet) (name : String) (kind : VKind) (dflt : String) : FlagSet :=
  ⟨fs.flags ++ [⟨name, kind, dflt, false⟩]⟩

/-- Lookup a registered flag by name. -/
def findFlag (fs : FlagSet) (name : String) : Option PFlag :=
  fs.flags.find? (fun f => f.name == name)

/-- Normalize a raw command-line value by flag kind; `none` means the
value is rejected (pflag's Set error). -/
def normValue (kind : VKind) (v : String) : Option String :=
  match kind with
  | .str => some v
  | .int => (goParseIntB0 v).map (fun n => toString n)
  | .float => if goParseFloatOk v then some v else none
  | .bool => (goParseBool v).map (fun b => if b then "true" else "false")

/-- Set a flag's value (pflag FlagSet.Set): validate, store, mark changed. -/
def fsSet (fs : FlagSet) (name v : String) : Except String FlagSet :=
  match findFlag fs name with
  | none => .error ("no such flag -" ++ name)
  | some fl =>
    match normValue fl.kind v with
    | some nv =>
      .ok ⟨fs.flags.map (fun f => if f.name == name then ⟨f.name, f.kind, nv, true⟩ else f)⟩
    | none => .error ("invalid argument \x22" ++ v ++ "\x22 for \x22--" ++ name ++ "\x22 flag")

/-- pflag's ErrHelp. -/
def errHelp : String := "pflag: help requested"

/-- pflag Parse with ContinueOnError (interspersed mode, the default).
Returns the output emitted through the Usage hook (only the `-h`
shorthand path reaches it here), and either an error or the updated
flag set with the collected positional arguments. -/
def parseTokens (usageT : List String) :
    FlagSet → List String → List String → List String × Except String (FlagSet × List String)
  | fs, acc, [] => ([], .ok (fs, acc))
  | fs, acc, s :: rest =>
    if s.length = 0 ∨ s.front ≠ '-' ∨ s.length = 1 then
      parseTokens usageT fs (acc ++ [s]) rest
    else if s.data.get? 1 = some '-' then
      if s.length = 2 then ([], .ok (fs, acc ++ rest))
      else
        let body := s.drop 2
        if body = "" ∨ body.front = '-' ∨ body.front = '=' then
          ([], .error ("bad flag syntax: " ++ s))
        else
          let (lname, hasVal, lval) : String × Bool × String :=
            match breakAtChar '=' body.data with
            | (n, none) => (⟨n⟩, false, "")
            | (n, some v) => (⟨n⟩, true, ⟨v⟩)
          match findFlag fs lname with
          | none =>
            if lname = "help" then (usageT, .error errHelp)
            else ([], .error ("unknown flag: --" ++ lname))
          | some fl =>
            if hasVal then
              match fsSet fs lname lval with
              | .ok fs2 => parseTokens usageT fs2 acc rest
              | .error e => ([], .error e)
            else if fl.kind = VKind.bool then
              match fsSet fs lname "true" with
              | .ok fs2 => parseTokens usageT fs2 acc rest
              | .error e => ([], .error e)
            else
              match rest with
              | v :: rest2 =>
                match fsSet fs lname v with
                | .ok fs2 => parseTokens usageT fs2 acc rest2
                | .error e => ([], .error e)
              | [] => ([], .error ("flag needs an argument: --" ++ lname))
    else
      let c := (s.drop 1).front
      if c = 'h' then (usageT, .error errHelp)
      else ([], .error ("unknown shorthand flag: \x27" ++ String.singleton c ++ "\x27 in " ++ s))

/-- The boolean value a registered bool flag currently holds
(dereferencing the pointer returned by flagSet.Bool). -/
def boolFlagVal (fs : FlagSet) (name : String) : Bool :=
  match findFlag fs name with
  | some f => f.value == "true"
  | none => false

/-- The flags set on the command line. -/
def changedFlags (fs : FlagSet) : List PFlag :=
  fs.flags.filter (·.changed)

/-- Insert into a by-name sorted flag list. -/
def insertFlag (f : PFlag) : List PFlag → List PFlag
  | [] => [f]
  | g :: rest => if strLtB f.name g.name then f :: g :: rest else g :: insertFlag f rest

/-- pflag Visit order: lexicographic by flag name. -/
def sortFlags : List PFlag → List PFlag
  | [] => []
  | f :: rest => insertFlag f (sortFlags rest)

/-! ## Help renderers (src/cligo.go lines 606-748) -/

/-- The upper-cased argument names of a command, in declaration order
(the first scan of getCommandUsage). -/
def commandArgNamesUpper (fields : List Field) : List String :=
  fields.filterMap (fun f =>
    if f.tag = "" then none
    else (alookup (parseCliTag f.tag) "argument").map goToUpper)

/-- getCommandUsage (lines 645-670).  Note the first %s verb is fed
cmd.Command(), not app.name. -/
def getCommandUsage (_app : App) (cmd : Cmd) (stack : List String) : String :=
  let path := String.intercalate " " stack
  let argsLine := String.intercalate " " (commandArgNamesUpper cmd.fields)
  "Usage: " ++ cmd.name ++ " " ++ path ++ " [OPTIONS] " ++ argsLine

/-- getCommandTryUsage (lines 673-676); also fed cmd.Command(). -/
def getCommandTryUsage (cmd : Cmd) (stack : List String) : String :=
  let path := String.intercalate " " stack
  "Try \x27" ++ cmd.name ++ " " ++ path ++ " --help\x27 for help"

/-- The Options block of printCommandHelp: one line per option binding,
headed by "Options:" before the first, with a default annotation only
for a non-empty declared default. -/
def commandOptionLines (fields : List Field) : List String :=
  (fields.foldl
    (fun (acc : Bool × List String) f =>
      if f.tag = "" then acc
      else
        match alookup (parseCliTag f.tag) "option" with
        | some optName =>
          let tp := parseCliTag f.tag
          let dflt := (alookup tp "default").getD ""
          let h0 := (alookup tp "help").getD ""
          let h := if h0 = "" then optName ++ " option" else h0
          let dtext := if dflt = "" then "" else " [default: " ++ dflt ++ "]"
          let line := "  --" ++ optName ++ "  " ++ h ++ dtext
          (true, acc.2 ++ (if acc.1 then [] else ["Options:"]) ++ [line])
        | none => acc)
    (false, [])).2

/-- printCommandHelp (lines 679-748): usage line, long help (falling
back to short), then the option lines.  The Arguments block guarded by
`hasArgs` is dead code in the source (`hasArgs` is never set) and so
renders nothing. -/
def printCommandHelp (app : App) (cmd : Cmd) (stack : List String) : List String :=
  let longDesc := if cmd.longHelp.length = 0 then cmd.shortHelp else cmd.longHelp
  getCommandUsage app cmd stack :: (longDesc ++ "\n") :: commandOptionLines cmd.fields

/-- printHelp for a group (lines 606-642): usage line (with COMMAND when
the group has children), optional long help, the root-only Options
block, and the child listing in registration order. -/
def printHelp (app : App) (groupName : String) (stack : List String) : List String :=
  let groups := groupsOf app groupName
  let commands := commandsOf app groupName
  let path := String.intercalate " " stack
  let usage :=
    if groups.length + commands.length > 0 then
      "Usage: " ++ app.name ++ " " ++ path ++ " [OPTIONS] COMMAND [ARGS]..."
    else
      "Usage: " ++ app.name ++ " " ++ path ++ " [OPTIONS] [ARGS]..."
  let helpText := helpsOf app groupName
  let helpLines := if helpText ≠ "" then ["\n" ++ helpText ++ "\n"] else []
  let optLines :=
    if groupName = RootGroup then
      ["Options:",
       "  --version  Show the version and exit.",
       "  --help     Show this message and exit.",
       ""]
    else []
  usage :: (helpLines ++ optLines ++ ["Commands:"]
    ++ groups.map (fun g => "  " ++ g.name ++ "\t" ++ g.shortHelp)
    ++ commands.map (fun c => "  " ++ c.name ++ "\t" ++ c.shortHelp))

/-! ## executeCommand (src/cligo.go lines 458-603) -/

/-- Result of the first pass over a command's fields: the argument
names with their field positions, the option-name-to-field map, and
the flag set built from the option bindings. -/
structure ScanOut where
  arguments : List String
  positions : List Nat
  options : List (String × Nat)
  fs : FlagSet
deriving Repr

/-- First pass of executeCommand (lines 473-523): collect argument
bindings; record and register option bindings by field kind.  An
option on a field of unsupported kind (the CliGroup field) is recorded
in the options map but registers no flag, as in the source. -/
def scanFields (fields : List Field) : ScanOut :=
  fields.enum.foldl
    (fun st (p : Nat × Field) =>
      let i := p.1
      let f := p.2
      if f.tag = "" then st
      else
        let tp := parseCliTag f.tag
        match alookup tp "argument" with
        | some argName =>
          { st with arguments := st.arguments ++ [argName], positions := st.positions ++ [i] }
        | none =>
          match alookup tp "option" with
          | some optName =>
            let st := { st with options := ainsert st.options optName i }
            match f.val with
            | .vstr _ =>
              let d := (alookup tp "default").getD ""
              { st with fs := addFlag st.fs optName .str d }
            | .vint _ =>
              let d : Int := match alookup tp "default" with
                             | some v => goAtoi v
                             | none => 0
              { st with fs := addFlag st.fs optName .int (toString d) }
            | .vfloat _ =>
              let d := match alookup tp "default" with
                       | some v => if goParseFloatOk v then v else "0"
                       | none => "0"
              { st with fs := addFlag st.fs optName .float d }
            | .vbool _ =>
              let d := match alookup tp "default" with
                       | some v => v == "true"
                       | none => false
              { st with fs := addFlag st.fs optName .bool (if d then "true" else "false") }
            | .vgroup => st
          | none => st)
    ⟨[], [], [], ⟨[]⟩⟩

/-- The error message of the missing-argument return (line 556), from
the first unmet (name, field position) pair. -/
def missingMsgOf : Option (String × Nat) → String
  | some (argName, fieldIndex) =>
    "missing argument \x27" ++ argName ++ "\x27 on position " ++ toString fieldIndex
  | none => ""

/-- The argument-assignment loop (lines 550-579).  One positional value
is consumed per argument binding; a binding whose positional value is
absent aborts with the missing-argument error after echoing the usage
line; int/float coercion failures abort with their own errors; fields
of other kinds fall through the type switch unassigned.  The writes
happen in place on the shared instance as the loop goes, so the
returned field list carries every assignment made before an error
aborts the loop (the coerced prefix stays written). -/
def setArgs (usageEcho : String) :
    List (String × Nat) → List String → List Field →
      List String × List Field × Except String Unit
  | [], _, fields => ([], fields, .ok ())
  | (argName, fieldIndex) :: _, [], fields =>
    ([usageEcho], fields, .error (missingMsgOf (some (argName, fieldIndex))))
  | (argName, fieldIndex) :: prest, v :: vrest, fields =>
    match fields.get? fieldIndex with
    | none => setArgs usageEcho prest vrest fields
    | some fld =>
      match fld.val with
      | .vstr _ => setArgs usageEcho prest vrest (fields.set fieldIndex ⟨fld.tag, .vstr v⟩)
      | .vint _ =>
        match goParseInt10 v with
        | some n => setArgs usageEcho prest vrest (fields.set fieldIndex ⟨fld.tag, .vint n⟩)
        | none =>
          ([usageEcho], fields, .error ("invalid integer for argument " ++ argName ++ ": " ++ v))
      | .vfloat _ =>
        if goParseFloatOk v then
          setArgs usageEcho prest vrest (fields.set fieldIndex ⟨fld.tag, .vfloat v⟩)
        else ([usageEcho], fields, .error ("invalid float for argument " ++ argName ++ ": " ++ v))
      | .vbool _ => setArgs usageEcho prest vrest fields
      | .vgroup => setArgs usageEcho prest vrest fields

/-- The field assignments `setArgs` performs for the supplied
positional values (mirrors its writes step by step): this is the state
the shared instance is left in when the loop aborts after consuming
the supplied values. -/
def assignPrefix : List Field → List (String × Nat) → List String → List Field
  | fields, _, [] => fields
  | fields, [], _ => fields
  | fields, (_, fieldIndex) :: prest, v :: vrest =>
    match fields.get? fieldIndex with
    | none => assignPrefix fields prest vrest
    | some fld =>
      match fld.val with
      | .vstr _ => assignPrefix (fields.set fieldIndex ⟨fld.tag, .vstr v⟩) prest vrest
      | .vint _ =>
        assignPrefix (fields.set fieldIndex ⟨fld.tag, .vint ((goParseInt10 v).getD 0)⟩) prest vrest
      | .vfloat _ => assignPrefix (fields.set fieldIndex ⟨fld.tag, .vfloat v⟩) prest vrest
      | .vbool _ => assignPrefix fields prest vrest
      | .vgroup => assignPrefix fields prest vrest

/-- Whether the coercions performed by `setArgs` succeed on all the
supplied positional values (mirrors `setArgs` step by step). -/
def coercePrefixOk : List Field → List (String × Nat) → List String → Bool
  | _, _, [] => true
  | _, [], _ => true
  | fields, (_, fieldIndex) :: prest, v :: vrest =>
    match fields.get? fieldIndex with
    | none => coercePrefixOk fields prest vrest
    | some fld =>
      match fld.val with
      | .vstr _ => coercePrefixOk (fields.set fieldIndex ⟨fld.tag, .vstr v⟩) prest vrest
      | .vint _ =>
        (goParseInt10 v).isSome &&
          coercePrefixOk (fields.set fieldIndex ⟨fld.tag, .vint ((goParseInt10 v).getD 0)⟩) prest vrest
      | .vfloat _ =>
        goParseFloatOk v && coercePrefixOk (fields.set fieldIndex ⟨fld.tag, .vfloat v⟩) prest vrest
      | .vbool _ => coercePrefixOk fields prest vrest
      | .vgroup => coercePrefixOk fields prest vrest

/-- The flagSet.Visit callback (lines 582-599): for every flag set on
the command line (visited in lexicographic order), write its value
into the mapped field, coerced by field kind with errors ignored. -/
def applyVisit (options : List (String × Nat)) (fields : List Field) (fls : List PFlag) : List Field :=
  fls.foldl
    (fun fds fl =>
      match alookup options fl.name with
      | some idx =>
        match fds.get? idx with
        | some fld =>
          match fld.val with
          | .vstr _ => fds.set idx ⟨fld.tag, .vstr fl.value⟩
          | .vint _ => fds.set idx ⟨fld.tag, .vint ((goParseInt10 fl.value).getD 0)⟩
          | .vfloat _ => fds.set idx ⟨fld.tag, .vfloat fl.value⟩
          | .vbool _ => fds.set idx ⟨fld.tag, .vbool ((goParseBool fl.value).getD false)⟩
          | .vgroup => fds
        | none => fds
      | none => fds)
    fields

/-- Result of one command dispatch: emitted output, the (possibly
mutated) command instance, how many times Run was invoked, and the
returned error. -/
structure ExecResult where
  trace : List String
  cmdAfter : Cmd
  invoked : Nat
  result : Except String Unit
deriving Repr

/-- executeCommand after a successful flag parse (lines 534-602): the
argValues debug print, the --help short-circuit, argument assignment,
option write-back, and the Run invocation.  When argument assignment
aborts with an error, the shared instance keeps the field writes the
loop made before aborting (it is mutated in place in the source), so
the returned command carries them. -/
def executePhase2 (app : App) (cmd : Cmd) (stack : List String) (sc : ScanOut)
    (fs' : FlagSet) (utrace : List String) (argValues : List String) : ExecResult :=
  let tr0 := utrace ++ ["argValues" ++ String.intercalate "," argValues]
  if boolFlagVal fs' "help" = true then
    ⟨tr0 ++ printCommandHelp app cmd stack, cmd, 0, .ok ()⟩
  else
    let usageEcho := getCommandUsage app cmd stack ++ "\n" ++ getCommandTryUsage cmd stack ++ "\n"
    match setArgs usageEcho (sc.arguments.zip sc.positions) argValues cmd.fields with
    | (etrace, fields1, .error e) => ⟨tr0 ++ etrace, { cmd with fields := fields1 }, 0, .error e⟩
    | (_, fields1, .ok _) =>
      let fields2 := applyVisit sc.options fields1 (sortFlags (changedFlags fs'))
      ⟨tr0, { cmd with fields := fields2 }, 1, cmd.runRes⟩

/-- executeCommand (lines 458-603): scan the fields, add the help flag,
parse the tokens (Usage hook = printCommandHelp), then bind and run. -/
def executeCommand (app : App) (cmd : Cmd) (args : List String) (stack : List String) : ExecResult :=
  let sc := scanFields cmd.fields
  let fs := addFlag sc.fs "help" .bool "false"
  match parseTokens (printCommandHelp app cmd stack) fs [] args with
  | (utrace, .error e) => ⟨utrace, cmd, 0, .error e⟩
  | (utrace, .ok (fs', argValues)) => executePhase2 app cmd stack sc fs' utrace argValues

/-! ## Resolver (src/cligo.go lines 392-455) and process wrapper -/

/-- Result of a resolution run: emitted output, the App afterwards
(carrying any in-place mutation of a dispatched command's fields), the
number of handler invocations, and the error result. -/
structure RunResult where
  trace : List String
  app : App
  invoked : Nat
  result : Except String Unit
deriving Repr

/-- Replace the first command registered under `parent` with name `tok`
(the entry `parseAndExecute` matched) by its post-dispatch state; this
realizes the pointer aliasing of the Go code. -/
def replaceFirstCmd : List (String × Cmd) → String → String → Cmd → List (String × Cmd)
  | [], _, _, _ => []
  | (p, c) :: rest, parent, tok, c2 =>
    if p == parent && c.name == tok then (p, c2) :: rest
    else (p, c) :: replaceFirstCmd rest parent tok c2

/-- parseAndExecute (lines 422-455): empty input renders help; a group
token descends (or renders the child group's help when followed by
--help or -h, with the pre-descent stack); a command token dispatches (or
renders command help); anything else prints the unknown diagnostic,
renders the current group's help, and returns the error. -/
def parseAndExecute (app : App) (currentGroup : String) :
    List String → List String → RunResult
  | [], stack => ⟨printHelp app currentGroup stack, app, 0, .ok ()⟩
  | tok :: rest, stack =>
    match (groupsOf app currentGroup).find? (fun g => g.name == tok) with
    | some g =>
      match rest with
      | r1 :: _ =>
        if r1 = "--help" ∨ r1 = "-h" then ⟨printHelp app g.name stack, app, 0, .ok ()⟩
        else parseAndExecute app g.name rest (stack ++ [tok])
      | [] => parseAndExecute app g.name rest (stack ++ [tok])
    | none =>
      match (commandsOf app currentGroup).find? (fun c => c.name == tok) with
      | some c =>
        match rest with
        | r1 :: _ =>
          if r1 = "--help" ∨ r1 = "-h" then ⟨printCommandHelp app c stack, app, 0, .ok ()⟩
          else
            let er := executeCommand app c rest (stack ++ [tok])
            ⟨er.trace, { app with commands := replaceFirstCmd app.commands currentGroup tok er.cmdAfter },
             er.invoked, er.result⟩
        | [] =>
          let er := executeCommand app c rest (stack ++ [tok])
          ⟨er.trace, { app with commands := replaceFirstCmd app.commands currentGroup tok er.cmdAfter },
           er.invoked, er.result⟩
      | none =>
        ⟨("Unknown command or group: " ++ tok) :: printHelp app currentGroup stack, app, 0,
         .error ("unknown command or group: " ++ tok)⟩

/-- RunCLI (lines 392-419) on the token vector after the program name:
no tokens renders root help; a first token of --version or -v prints the
version banner (unconditionally intercepted); --help or -h renders root
help; otherwise resolution starts at the root group with an empty
stack. -/
def RunCLI (app : App) (argv : List String) : RunResult :=
  match argv with
  | [] => ⟨printHelp app RootGroup [], app, 0, .ok ()⟩
  | a0 :: _ =>
    if a0 = "--version" ∨ a0 = "-v" then
      ⟨["Application: " ++ app.name]
        ++ (if app.version ≠ "" then ["Version: " ++ app.version] else [])
        ++ (if app.build ≠ "" then ["Build: " ++ app.build] else []),
       app, 0, .ok ()⟩
    else if a0 = "--help" ∨ a0 = "-h" then ⟨printHelp app RootGroup [], app, 0, .ok ()⟩
    else parseAndExecute app RootGroup argv []

/-- Main/Run (lines 792-853) after registration: a non-nil error from
RunCLI prints `Error: <msg>` and exits with status 1; otherwise the
process exits with status 0. -/
def mainRun (app : App) (argv : List String) : List String × Nat :=
  let r := RunCLI app argv
  match r.result with
  | .ok _ => (r.trace, 0)
  | .error e => (r.trace ++ ["Error: " ++ e], 1)

/-! ## Concrete descriptors (the naval-fate example of src/example and README) -/

/-- The bound fields of the (first) command named `nm` registered under
`parent`, as resolution would find it. -/
def cmdFieldsIn (app : App) (parent nm : String) : Option (List Field) :=
  ((commandsOf app parent).find? (fun c => c.name == nm)).map (·.fields)

/-- The `ship` group, mounted under the root group `cli`. -/
def shipGroup : GroupD :=
  { name := "ship", shortHelp := "Manages ships.", longHelp := "",
    fields := [⟨"group=cli", .vgroup⟩] }

/-- A second group also named `ship` under the root, for duplicate
registration scenarios. -/
def shipGroup2 : GroupD :=
  { name := "ship", shortHelp := "Second ship group.", longHelp := "",
    fields := [⟨"group=cli", .vgroup⟩] }

/-- ShipNew: string argument `name`, int option `count` (default 1),
bool option `verbose` (default false); parametrized by the initial
field values of the registered instance and by the handler result. -/
def shipNewCmd (s0 : String) (n0 : Int) (b0 : Bool) (e : Except String Unit) : Cmd :=
  { name := "new", shortHelp := "Creates a new ship.", longHelp := "",
    fields := [⟨"group=ship", .vgroup⟩,
               ⟨"argument=name", .vstr s0⟩,
               ⟨"option=count,default=1,help=number of greetings", .vint n0⟩,
               ⟨"option=verbose,default=false,help=Print verbose output.", .vbool b0⟩],
    runRes := e }

/-- The app state after registering `shipGroup` and `shipNewCmd` on
`mkApp aname "Naval Fate." "" ""` (equality with the registration fold
is part of the round-trip theorem). -/
def navalApp (aname s0 : String) (n0 : Int) (b0 : Bool) (e : Except String Unit) : App :=
  { name := aname, help := "Naval Fate.", version := "", build := "",
    groups := [("cli", shipGroup)],
    commands := [("ship", shipNewCmd s0 n0 b0 e)],
    helps := [("cli", "Naval Fate."), ("ship", "Manages ships.")] }

/-- The registered naval-fate app with zero-valued command fields. -/
def navalApp0 : App := navalApp "naval" "" 0 false (.ok ())

/-- A command with a bool option whose declared default is `true`. -/
def pruneCmd (b0 : Bool) : Cmd :=
  { name := "prune", shortHelp := "Prunes old ships.", longHelp := "",
    fields := [⟨"group=ship", .vgroup⟩,
               ⟨"option=dry,default=true,help=Dry run.", .vbool b0⟩],
    runRes := .ok () }

/-- App carrying `pruneCmd` under the `ship` group. -/
def pruneApp (b0 : Bool) : App :=
  { name := "naval", help := "Naval Fate.", version := "", build := "",
    groups := [("cli", shipGroup)],
    commands := [("ship", pruneCmd b0)],
    helps := [("cli", "Naval Fate."), ("ship", "Manages ships.")] }

/-- A command with a bool option that declares no default. -/
def washCmd : Cmd :=
  { name := "wash", shortHelp := "Washes a ship.", longHelp := "",
    fields := [⟨"group=ship", .vgroup⟩,
               ⟨"option=wet,help=Use water.", .vbool false⟩],
    runRes := .ok () }

/-- App carrying `washCmd` under the `ship` group. -/
def washApp : App :=
  { name := "naval", help := "Naval Fate.", version := "", build := "",
    groups := [("cli", shipGroup)],
    commands := [("ship", washCmd)],
    helps := [("cli", "Naval Fate."), ("ship", "Manages ships.")] }

/-- A command with two argument bindings, the first of int kind. -/
def moveCmd : Cmd :=
  { name := "move", shortHelp := "Moves a ship.", longHelp := "",
    fields := [⟨"group=ship", .vgroup⟩,
               ⟨"argument=x", .vint 0⟩,
               ⟨"argument=name", .vstr ""⟩],
    runRes := .ok () }

/-- The app state after registering `shipGroup` and then `shipGroup2`
on an empty app (equality with the registration chain is part of the
duplicate-registration counterexample). -/
def dupApp : App :=
  { name := "naval", help := "", version := "", build := "",
    groups := [("cli", shipGroup), ("cli", shipGroup2)], commands := [],
    helps := [("ship", "Second ship group.")] }

/-! ## Theorems -/

/-- C1: a command with an ordered string argument binding `name` and an
int option binding `count` (default 1), mounted under group `ship`
which sits under the root group, resolved on tokens
["ship", "new", "Enterprise", "--count", "3"], binds name="Enterprise"
and count=3 and invokes the Run handler exactly once, propagating the
handler's result unchanged — for every app name, every initial state of
the registered instance's bound fields, and every handler result. -/
theorem c1_round_trip (aname s0 : String) (n0 : Int) (b0 : Bool) (e : Except String Unit) :
    registerAll (mkApp aname "Naval Fate." "" "") [shipGroup] [shipNewCmd s0 n0 b0 e] =
      .ok (navalApp aname s0 n0 b0 e) ∧
    (RunCLI (navalApp aname s0 n0 b0 e) ["ship", "new", "Enterprise", "--count", "3"]).invoked = 1 ∧
    (RunCLI (navalApp aname s0 n0 b0 e) ["ship", "new", "Enterprise", "--count", "3"]).result = e ∧
    cmdFieldsIn (RunCLI (navalApp aname s0 n0 b0 e) ["ship", "new", "Enterprise", "--count", "3"]).app
        "ship" "new" =
      some [⟨"group=ship", .vgroup⟩,
            ⟨"argument=name", .vstr "Enterprise"⟩,
            ⟨"option=count,default=1,help=number of greetings", .vint 3⟩,
            ⟨"option=verbose,default=false,help=Print verbose output.", .vbool b0⟩] :=
  ⟨rfl, rfl, rfl, rfl⟩

/-- C5: resolving an empty remaining-token list at any group node
renders that group's help and reports success; the empty argument
vector at the root (RunCLI) does the same. -/
theorem c5_empty_tokens (app : App) (g : String) (stack : List String) :
    parseAndExecute app g [] stack = ⟨printHelp app g stack, app, 0, .ok ()⟩ ∧
    RunCLI app [] = ⟨printHelp app RootGroup [], app, 0, .ok ()⟩ :=
  ⟨rfl, rfl⟩

/-- C2 counterexample: a bool option binding `dry` declared with
default=true, invoked with the option token absent on a zero-valued
instance: the handler runs and sees the field `false`, not the declared
default `true` — the claim's absence clause fails on the code. -/
theorem c2_counterexample :
    alookup (parseCliTag "option=dry,default=true,help=Dry run.") "default" = some "true" ∧
    (RunCLI (pruneApp false) ["ship", "prune"]).invoked = 1 ∧
    cmdFieldsIn (RunCLI (pruneApp false) ["ship", "prune"]).app "ship" "prune" =
      some [⟨"group=ship", .vgroup⟩,
            ⟨"option=dry,default=true,help=Dry run.", .vbool false⟩] :=
  ⟨rfl, rfl, rfl⟩

/-- C2 amended: bare `--dry` is fully equivalent to `--dry=true` (same
run result, same bound fields); when the option token is absent the
bound field keeps its pre-dispatch value regardless of the declared
default (so a zero-valued fresh instance yields `false`, also when no
default is declared). -/
theorem c2_bool_option (b0 : Bool) :
    RunCLI (pruneApp b0) ["ship", "prune", "--dry"] =
      RunCLI (pruneApp b0) ["ship", "prune", "--dry=true"] ∧
    cmdFieldsIn (RunCLI (pruneApp b0) ["ship", "prune", "--dry"]).app "ship" "prune" =
      some [⟨"group=ship", .vgroup⟩,
            ⟨"option=dry,default=true,help=Dry run.", .vbool true⟩] ∧
    cmdFieldsIn (RunCLI (pruneApp b0) ["ship", "prune"]).app "ship" "prune" =
      some [⟨"group=ship", .vgroup⟩,
            ⟨"option=dry,default=true,help=Dry run.", .vbool b0⟩] ∧
    cmdFieldsIn (RunCLI washApp ["ship", "wash"]).app "ship" "wash" =
      some [⟨"group=ship", .vgroup⟩,
            ⟨"option=wet,help=Use water.", .vbool false⟩] :=
  ⟨rfl, rfl, rfl, rfl⟩

/-- C7 counterexample: dispatching `ship new Santa` mutates the shared
registered command instance: the registered descriptor's bound fields
after the dispatch differ from their pre-dispatch values. -/
theorem c7_counterexample :
    (RunCLI navalApp0 ["ship", "new", "Santa"]).invoked = 1 ∧
    cmdFieldsIn (RunCLI navalApp0 ["ship", "new", "Santa"]).app "ship" "new" ≠
      cmdFieldsIn navalApp0 "ship" "new" :=
  ⟨rfl, by decide⟩

/-- C7 amended: dispatch writes the parsed values directly into the
shared registered command instance (no request-scoped copy): after the
dispatch, the registered descriptor's bound fields hold the parsed
argument value, for every initial field state and handler result. -/
theorem c7_shared_mutation (s0 : String) (n0 : Int) (b0 : Bool) (e : Except String Unit) :
    cmdFieldsIn (RunCLI (navalApp "naval" s0 n0 b0 e) ["ship", "new", "Santa"]).app "ship" "new" =
      some [⟨"group=ship", .vgroup⟩,
            ⟨"argument=name", .vstr "Santa"⟩,
            ⟨"option=count,default=1,help=number of greetings", .vint n0⟩,
            ⟨"option=verbose,default=false,help=Print verbose output.", .vbool b0⟩] ∧
    (RunCLI (navalApp "naval" s0 n0 b0 e) ["ship", "new", "Santa"]).invoked = 1 :=
  ⟨rfl, rfl⟩

/-- C8: the command usage line rendered for the matched `new` command
(app name "naval", path "ship new") is "Usage: new ship new [OPTIONS]
NAME": it begins with the command name, not the application name (the
argument names are upper-cased in declaration order as claimed). -/
theorem c8_usage_line :
    getCommandUsage navalApp0 (shipNewCmd "" 0 false (.ok ())) ["ship", "new"] =
      "Usage: new ship new [OPTIONS] NAME" ∧
    "Usage: new ship new [OPTIONS] NAME" ≠
      "Usage: " ++ navalApp0.name ++ " ship new [OPTIONS] NAME" :=
  ⟨rfl, by decide⟩

/-- C9 counterexample: with no version string configured, the first
token `--version` is still intercepted as the version flag (the run
prints the application banner and succeeds without resolution), and
root-level help still lists the --version option. -/
theorem c9_counterexample :
    navalApp0.version = "" ∧
    RunCLI navalApp0 ["--version"] = ⟨["Application: naval"], navalApp0, 0, .ok ()⟩ ∧
    "  --version  Show the version and exit." ∈ printHelp navalApp0 RootGroup [] :=
  ⟨rfl, rfl, by decide⟩

/-- C6 counterexample: registering a second group named "ship" under
the same parent after a first one is accepted (no error is returned),
so duplication is not a registration error; the earlier registration is
preserved, appended before the later one. -/
theorem c6_counterexample :
    (RegisterGroup (mkApp "naval" "" "" "") shipGroup).bind
        (fun a => RegisterGroup a shipGroup2) = .ok dupApp ∧
    groupsOf dupApp RootGroup = [shipGroup, shipGroup2] :=
  ⟨rfl, rfl⟩

/-- C6 amended: registering two groups, or two commands, that declare
the same parent always succeeds (given each declares a parent),
appending both in order: the earlier registration is kept, ordered
before the later one, and — when it is the first entry under that
parent — it is still the one resolution's first-match lookup finds. -/
theorem c6_duplicate_append :
    (∀ (app : App) (g1 g2 : GroupD) (p : String),
      extractParentGroup g1.fields = p →
      extractParentGroup g2.fields = p →
      p ≠ "" →
      ∃ app2,
        (RegisterGroup app g1).bind (fun a => RegisterGroup a g2) = .ok app2 ∧
        groupsOf app2 p = groupsOf app p ++ [g1, g2] ∧
        (groupsOf app p = [] →
          (groupsOf app2 p).find? (fun x => x.name == g1.name) = some g1)) ∧
    (∀ (app : App) (c1 c2 : Cmd) (p : String),
      extractParentGroup c1.fields = p →
      extractParentGroup c2.fields = p →
      p ≠ "" →
      ∃ app2,
        (RegisterCommand app c1).bind (fun a => RegisterCommand a c2) = .ok app2 ∧
        commandsOf app2 p = commandsOf app p ++ [c1, c2] ∧
        (commandsOf app p = [] →
          (commandsOf app2 p).find? (fun x => x.name == c1.name) = some c1)) := by
  constructor
  · intro app g1 g2 p h1 h2 hp
    have hgrps : ∀ app2 : App, app2.groups = app.groups ++ [(p, g1)] ++ [(p, g2)] →
        groupsOf app2 p = groupsOf app p ++ [g1, g2] := by
      intro app2 h
      simp [groupsOf, h, List.filter_append]
    refine ⟨App.mk app.name app.help app.version app.build
        (app.groups ++ [(p, g1)] ++ [(p, g2)]) app.commands
        (ainsert (ainsert app.helps g1.name
            (if g1.longHelp.length = 0 then g1.shortHelp else g1.longHelp))
          g2.name (if g2.longHelp.length = 0 then g2.shortHelp else g2.longHelp)),
      ?_, hgrps _ rfl, ?_⟩
    · simp [RegisterGroup, h1, h2, hp, Except.bind]
    · intro h0
      rw [hgrps _ rfl, h0]
      simp [List.find?]
  · intro app c1 c2 p h1 h2 hp
    have hcmds : ∀ app2 : App, app2.commands = app.commands ++ [(p, c1)] ++ [(p, c2)] →
        commandsOf app2 p = commandsOf app p ++ [c1, c2] := by
      intro app2 h
      simp [commandsOf, h, List.filter_append]
    refine ⟨App.mk app.name app.help app.version app.build
        app.groups (app.commands ++ [(p, c1)] ++ [(p, c2)]) app.helps,
      ?_, hcmds _ rfl, ?_⟩
    · simp [RegisterCommand, h1, h2, hp, Except.bind]
    · intro h0
      rw [hcmds _ rfl, h0]
      simp [List.find?]

/-- C6 amended, concrete instances: both registrations of a duplicated
"ship" group under parent "cli" succeed and append in order (the
earlier one still found first), and likewise for two registrations of
the duplicated "new" command under parent "ship". -/
theorem c6_duplicate_append_witness :
    extractParentGroup shipGroup.fields = "cli" ∧
    (∃ app2,
      (RegisterGroup (mkApp "naval" "" "" "") shipGroup).bind
          (fun a => RegisterGroup a shipGroup2) = .ok app2 ∧
      groupsOf app2 "cli" = groupsOf (mkApp "naval" "" "" "") "cli" ++ [shipGroup, shipGroup2] ∧
      (groupsOf (mkApp "naval" "" "" "") "cli" = [] →
        (groupsOf app2 "cli").find? (fun x => x.name == shipGroup.name) = some shipGroup)) ∧
    (∃ app2,
      (RegisterCommand (mkApp "naval" "" "" "") (shipNewCmd "" 0 false (.ok ()))).bind
          (fun a => RegisterCommand a (shipNewCmd "" 0 false (.ok ()))) = .ok app2 ∧
      commandsOf app2 "ship" = commandsOf (mkApp "naval" "" "" "") "ship"
        ++ [shipNewCmd "" 0 false (.ok ()), shipNewCmd "" 0 false (.ok ())] ∧
      (commandsOf (mkApp "naval" "" "" "") "ship" = [] →
        (commandsOf app2 "ship").find? (fun x => x.name == (shipNewCmd "" 0 false (.ok ())).name) =
          some (shipNewCmd "" 0 false (.ok ())))) :=
  ⟨rfl,
   c6_duplicate_append.1 (mkApp "naval" "" "" "") shipGroup shipGroup2 "cli" rfl rfl (by decide),
   c6_duplicate_append.2 (mkApp "naval" "" "" "") (shipNewCmd "" 0 false (.ok ()))
     (shipNewCmd "" 0 false (.ok ())) "ship" rfl rfl (by decide)⟩

/-- C3 counterexample: `moveCmd` has two argument bindings; one
positional token remains after option extraction (fewer than two), yet
the returned error is the int-coercion failure for the supplied first
token, not a MissingArgument error naming the first unmet binding (the
handler is indeed not invoked). -/
theorem c3_counterexample :
    (scanFields moveCmd.fields).arguments = ["x", "name"] ∧
    parseTokens (printCommandHelp navalApp0 moveCmd ["ship", "move"])
        (addFlag (scanFields moveCmd.fields).fs "help" VKind.bool "false") [] ["abc"] =
      ([], .ok (addFlag (scanFields moveCmd.fields).fs "help" VKind.bool "false", ["abc"])) ∧
    (executeCommand navalApp0 moveCmd ["abc"] ["ship", "move"]).invoked = 0 ∧
    (executeCommand navalApp0 moveCmd ["abc"] ["ship", "move"]).result =
      .error "invalid integer for argument x: abc" ∧
    "invalid integer for argument x: abc" ≠ missingMsgOf (some ("name", 2)) :=
  ⟨rfl, rfl, rfl, rfl, by decide⟩

/-- C9 amended: the first token --version is always intercepted at the
root, whether or not a version string was configured — the banner
always carries the application name and carries a Version line exactly
when a version was configured — and root-level help always lists the
--version option. -/
theorem c9_version_always (app : App) (rest stack : List String) :
    RunCLI app ("--version" :: rest) =
      ⟨["Application: " ++ app.name]
        ++ (if app.version ≠ "" then ["Version: " ++ app.version] else [])
        ++ (if app.build ≠ "" then ["Build: " ++ app.build] else []),
       app, 0, .ok ()⟩ ∧
    "  --version  Show the version and exit." ∈ printHelp app RootGroup stack := by
  constructor
  · rfl
  · simp [printHelp]

/-- C4: a first token matching neither a child group nor a child
command of the current group makes parseAndExecute print the unknown
diagnostic, render the current group's help, and return the
unknown-token error (no handler runs, the registry is untouched); at
the root (for a token that is not one of the reserved flags RunCLI
intercepts) the whole run therefore emits the help lines before the
final `Error:` line and exits with status 1. -/
theorem c4_unknown_token (app : App) (cur tok : String) (rest stack : List String)
    (hg : (groupsOf app cur).find? (fun g => g.name == tok) = none)
    (hc : (commandsOf app cur).find? (fun c => c.name == tok) = none) :
    parseAndExecute app cur (tok :: rest) stack =
      ⟨("Unknown command or group: " ++ tok) :: printHelp app cur stack, app, 0,
       .error ("unknown command or group: " ++ tok)⟩ ∧
    (cur = RootGroup → tok ≠ "--version" → tok ≠ "-v" → tok ≠ "--help" → tok ≠ "-h" →
      mainRun app (tok :: rest) =
        ((("Unknown command or group: " ++ tok) :: printHelp app RootGroup [])
          ++ ["Error: unknown command or group: " ++ tok], 1)) := by
  have key : ∀ st : List String,
      parseAndExecute app cur (tok :: rest) st =
        ⟨("Unknown command or group: " ++ tok) :: printHelp app cur st, app, 0,
         .error ("unknown command or group: " ++ tok)⟩ := by
    intro st
    simp [parseAndExecute, hg, hc]
  refine ⟨key stack, ?_⟩
  intro hroot h1 h2 h3 h4
  subst hroot
  simp only [mainRun, RunCLI, key []]
  simp only [h1, h2, h3, h4]
  obtain ⟨tokData⟩ := tok
  rfl

/-- C4, concrete instance: the unknown top-level token "launch" on the
naval-fate app renders root help and exits with status 1. -/
theorem c4_unknown_token_witness :
    ((groupsOf navalApp0 RootGroup).find? (fun g => g.name == "launch") = none) ∧
    ((commandsOf navalApp0 RootGroup).find? (fun c => c.name == "launch") = none) ∧
    mainRun navalApp0 ["launch"] =
      ((("Unknown command or group: launch") :: printHelp navalApp0 RootGroup [])
        ++ ["Error: unknown command or group: launch"], 1) := by
  refine ⟨rfl, rfl, ?_⟩
  exact (c4_unknown_token navalApp0 RootGroup "launch" [] [] rfl rfl).2 rfl
    (by decide) (by decide) (by decide) (by decide)

/-- C10: when a child-group token is immediately followed by --help,
the child group's help is rendered with the path stack as it was
before descending (so the usage path omits that group's own token);
concretely, ["ship", "--help"] at the root of the naval-fate app
renders a usage line whose path part is empty, not "ship". -/
theorem c10_group_help_stack :
    (∀ (app : App) (cur tok : String) (rest stack : List String) (g : GroupD),
      (groupsOf app cur).find? (fun x => x.name == tok) = some g →
      parseAndExecute app cur (tok :: "--help" :: rest) stack =
        ⟨printHelp app g.name stack, app, 0, .ok ()⟩) ∧
    (RunCLI navalApp0 ["ship", "--help"]).trace.head? =
      some "Usage: naval  [OPTIONS] COMMAND [ARGS]..." := by
  constructor
  · intro app cur tok rest stack g h
    simp [parseAndExecute, h]
  · rfl

/-- C10, concrete instance: resolving ["ship", "--help"] at the root
renders the `ship` group's help against the empty pre-descent stack. -/
theorem c10_group_help_stack_witness :
    ((groupsOf navalApp0 RootGroup).find? (fun x => x.name == "ship") = some shipGroup) ∧
    parseAndExecute navalApp0 RootGroup ["ship", "--help"] [] =
      ⟨printHelp navalApp0 shipGroup.name [], navalApp0, 0, .ok ()⟩ :=
  ⟨rfl, c10_group_help_stack.1 navalApp0 RootGroup "ship" [] [] shipGroup rfl⟩

/-- The argument-assignment loop on fewer positional values than
argument bindings: when every supplied value coerces, it stops at the
first unmet binding with the missing-argument error (after echoing the
usage line), leaving the assignments already made for the supplied
values written into the field list. -/
theorem setArgs_missing (u : String) :
    ∀ (vals : List String) (pairs : List (String × Nat)) (fields : List Field),
      vals.length < pairs.length →
      coercePrefixOk fields pairs vals = true →
      setArgs u pairs vals fields =
        ([u], assignPrefix fields pairs vals, .error (missingMsgOf (pairs.get? vals.length))) := by
  intro vals
  induction vals with
  | nil =>
    intro pairs fields hlt _
    cases pairs with
    | nil => simp at hlt
    | cons p prest =>
      obtain ⟨argName, fieldIndex⟩ := p
      rfl
  | cons v vrest ih =>
    intro pairs fields hlt hok
    cases pairs with
    | nil => simp at hlt
    | cons p prest =>
      obtain ⟨argName, fieldIndex⟩ := p
      have hlt2 : vrest.length < prest.length := by
        simp only [List.length_cons] at hlt
        omega
      simp only [setArgs, coercePrefixOk, assignPrefix] at hok ⊢
      cases hf : fields.get? fieldIndex with
      | none =>
        rw [hf] at hok
        exact ih prest fields hlt2 hok
      | some fld =>
        rw [hf] at hok
        obtain ⟨ftag, fval⟩ := fld
        cases fval with
        | vstr s => exact ih prest _ hlt2 hok
        | vint n =>
          have hok' : (goParseInt10 v).isSome = true ∧
              coercePrefixOk
                (fields.set fieldIndex ⟨ftag, FieldVal.vint ((goParseInt10 v).getD 0)⟩)
                prest vrest = true := by
            simpa [Bool.and_eq_true] using hok
          obtain ⟨hsome, hok2⟩ := hok'
          obtain ⟨m, hm⟩ := Option.isSome_iff_exists.mp hsome
          rw [hm] at hok2 ⊢
          exact ih prest _ hlt2 hok2
        | vfloat r =>
          have hok' : goParseFloatOk v = true ∧
              coercePrefixOk (fields.set fieldIndex ⟨ftag, FieldVal.vfloat v⟩)
                prest vrest = true := by
            simpa [Bool.and_eq_true] using hok
          obtain ⟨hfl, hok2⟩ := hok'
          rw [hfl]
          exact ih prest _ hlt2 hok2
        | vbool b => exact ih prest fields hlt2 hok
        | vgroup => exact ih prest fields hlt2 hok

/-- C3 amended: for every command, when flag parsing succeeds, --help
was not set, fewer positional values remain than the command's argument
bindings, and type coercion succeeds on the supplied values, the
dispatch echoes the usage lines and returns the missing-argument error
naming the first unmet binding (name and field position) — the Run
handler is never invoked, while the shared instance keeps the
assignments already made for the supplied positional values.  (When a
supplied value fails coercion first, the coercion error is returned
instead; the handler is still not invoked, see the counterexample.) -/
theorem c3_missing_argument (app : App) (cmd : Cmd) (args stack : List String)
    (fs' : FlagSet) (argValues : List String)
    (hparse : parseTokens (printCommandHelp app cmd stack)
        (addFlag (scanFields cmd.fields).fs "help" VKind.bool "false") [] args
      = ([], .ok (fs', argValues)))
    (hnohelp : boolFlagVal fs' "help" = false)
    (hlt : argValues.length <
        ((scanFields cmd.fields).arguments.zip (scanFields cmd.fields).positions).length)
    (hok : coercePrefixOk cmd.fields
        ((scanFields cmd.fields).arguments.zip (scanFields cmd.fields).positions) argValues
      = true) :
    executeCommand app cmd args stack =
      ⟨["argValues" ++ String.intercalate "," argValues,
        getCommandUsage app cmd stack ++ "\n" ++ getCommandTryUsage cmd stack ++ "\n"],
       Cmd.mk cmd.name cmd.shortHelp cmd.longHelp
         (assignPrefix cmd.fields
           ((scanFields cmd.fields).arguments.zip (scanFields cmd.fields).positions) argValues)
         cmd.runRes,
       0,
       .error (missingMsgOf
         (((scanFields cmd.fields).arguments.zip (scanFields cmd.fields).positions).get?
           argValues.length))⟩ := by
  simp only [executeCommand, hparse]
  simp only [executePhase2]
  simp only [hnohelp]
  rw [setArgs_missing
    (getCommandUsage app cmd stack ++ "\n" ++ getCommandTryUsage cmd stack ++ "\n")
    argValues ((scanFields cmd.fields).arguments.zip (scanFields cmd.fields).positions)
    cmd.fields hlt hok]
  simp

/-- C3 amended, concrete instance: the `move` command (two argument
bindings) dispatched with one token "5" returns the missing-argument
error for `name` at field position 2 and never invokes the handler;
the coerced prefix is left written in the shared instance (x = 5). -/
theorem c3_missing_argument_witness :
    (["5"] : List String).length <
      ((scanFields moveCmd.fields).arguments.zip (scanFields moveCmd.fields).positions).length ∧
    executeCommand navalApp0 moveCmd ["5"] ["ship", "move"] =
      ⟨["argValues5",
        "Usage: move ship move [OPTIONS] X NAME\nTry \x27move ship move --help\x27 for help\n"],
       Cmd.mk "move" "Moves a ship." ""
         [⟨"group=ship", .vgroup⟩, ⟨"argument=x", .vint 5⟩, ⟨"argument=name", .vstr ""⟩]
         (.ok ()), 0,
       .error "missing argument \x27name\x27 on position 2"⟩ :=
  ⟨by decide,
   c3_missing_argument navalApp0 moveCmd ["5"] ["ship", "move"]
     (addFlag (scanFields moveCmd.fields).fs "help" VKind.bool "false")
     ["5"] rfl rfl (by decide) rfl⟩

end Cligo
